import Mathlib

/-!
Verification development for the Worison-AI backend (Flask chat assistant).

The definitions below are a shallow embedding of the Python source under
`backend/`:
  - Python `str` values are modelled as Lean `String` / `List Char`;
  - Python string methods (`strip`, slicing, `rfind`, `split`, `replace`,
    `startswith`) are re-implemented over `List Char` with Python semantics;
  - calls to external services (the hosted GenAI model, `json.loads`, the
    image/embedding SDK, file extraction libraries) are modelled as oracle
    parameters; a Python exception raised by such a call is an
    `Except.error`;
  - the SQLite tables touched by the chat handlers are modelled as lists of
    row structures, in insertion order (`ORDER BY id` on an AUTOINCREMENT
    key returns insertion order).
-/

/-- Python `str.isspace` for the ASCII whitespace characters recognised by
`str.strip()` with no argument. -/
def pyIsSpace (c : Char) : Bool :=
  c = ' ' || c = '\t' || c = '\n' || c = '\r' || c = '\x0b' || c = '\x0c'

/-- Python `str.strip()` on a character list. -/
def pyStripList (l : List Char) : List Char :=
  ((l.dropWhile pyIsSpace).reverse.dropWhile pyIsSpace).reverse

/-- Python `str.strip()`. -/
def pyStrip (s : String) : String :=
  ⟨pyStripList s.data⟩

/-- Python `s.startswith(pre)`. -/
def pyStartswith (s pre : String) : Bool :=
  pre.data.isPrefixOf s.data

/-- Python slicing `t[a:b]` for non-negative bounds (clamps, empty when
`b ≤ a`). -/
def pySlice (t : List Char) (a b : Nat) : List Char :=
  (t.take b).drop a

/-- Python `t[:n]` on a string. -/
def pyTake (s : String) (n : Nat) : String :=
  ⟨s.data.take n⟩

/-- Python `s.split(sep)` for a one-character separator: every occurrence
separates, empty pieces are kept (`"a,,b".split(",") == ["a","","b"]`,
`"".split(",") == [""]`). -/
def pySplitChar (sep : Char) : List Char → List (List Char)
  | [] => [[]]
  | c :: rest =>
    if c = sep then
      [] :: pySplitChar sep rest
    else
      match pySplitChar sep rest with
      | [] => [[c]]
      | p :: ps => (c :: p) :: ps

/-- In `model_wrapper.ModelWrapper.keywords`, fallback path, the per-token
`p.strip(" \"'[]\x7b\x7d")` character set. -/
def kwStripChar (c : Char) : Bool :=
  c = ' ' || c = '"' || c = '\'' || c = '[' || c = ']' || c = '\x7b' || c = '\x7d'

/-- Python `p.strip(chars)`: drop characters of the set from both ends. -/
def pyStripSet (l : List Char) : List Char :=
  ((l.dropWhile kwStripChar).reverse.dropWhile kwStripChar).reverse

/-- The loop of the keyword fallback parser in
`model_wrapper.ModelWrapper.keywords`:

    out = []
    for p in raw.replace("\n", ",").split(","):
        p = p.strip(" \"'[]\x7b\x7d")
        if p and p not in out:
            out.append(p)
        if len(out) >= top_k:
            break
    return out

Note the `break` test runs after the (possible) append, so it fires as soon
as `len(out) >= top_k`, even when nothing was appended in that iteration. -/
def kwLoop (topK : Nat) : List (List Char) → List String → List String
  | [], out => out
  | p :: ps, out =>
    let q := pyStripSet p
    let out' := if q ≠ [] ∧ ¬ (String.mk q) ∈ out then out ++ [String.mk q] else out
    if topK ≤ out'.length then out' else kwLoop topK ps out'

/-- The `model_wrapper.ModelWrapper.keywords` fallback path taken when
`json.loads(raw)` fails or does not produce a list: split the raw model
output on commas and newlines, strip decoration, de-duplicate, stop at
`top_k`. -/
def keywordsFallback (raw : String) (topK : Nat) : List String :=
  kwLoop topK (pySplitChar ',' (raw.data.map (fun c => if c = '\n' then ',' else c))) []

/-! ## Streaming response framing (`app.stream_chat`, inner generator `gen`)

The source computes `parts = re.split(PAT, full)` where `PAT` is the raw
string `(\\.|\\?|!|\\n)`.  Because the backslashes are doubled, the
alternatives of this regex are: `\\.` = a literal backslash followed by any
character other than a newline; `\\?` = zero or one literal backslash
(which matches the empty string at any position!); `!`; `\\n` = a literal
backslash followed by the letter n (subsumed by the first alternative).
Under CPython's `re.split` semantics (Python >= 3.7, empty matches allowed
but never adjacent to a previous empty match), this splits the text at
every position: for backslash-free text every piece is a single character
or empty.  `reSplitGo` reproduces those semantics exactly, including the
capture of the separator pieces; its output was checked against CPython
3.11 on backslash-free and backslash-containing inputs. -/

/-- One scan of CPython `re.split(r"(\\.|\\?|!|\\n)", ...)`.
`forbid` is true exactly when the previous match was an empty match ending
at the current position (an adjacent empty match is then disallowed, so the
engine either takes a non-empty match here — only `!` can provide one on
backslash-free text — or consumes one character into the current segment).
`seg` is the segment accumulated since the last match.  `fuel` only bounds
the recursion; `2 * length + 3` is always sufficient. -/
def reSplitGo : Nat → Bool → List Char → List Char → List (List Char)
  | 0, _, seg, _ => [seg]
  | fuel + 1, forbid, seg, cs =>
    match cs with
    | '\\' :: c :: rest =>
      if c ≠ '\n' then
        seg :: ['\\', c] :: reSplitGo fuel false [] rest
      else
        seg :: ['\\'] :: reSplitGo fuel false [] (c :: rest)
    | ['\\'] => seg :: ['\\'] :: reSplitGo fuel false [] []
    | cs' =>
      if forbid then
        match cs' with
        | '!' :: rest => seg :: ['!'] :: reSplitGo fuel false [] rest
        | c :: rest => reSplitGo fuel false (seg ++ [c]) rest
        | [] => [seg]
      else
        seg :: [] :: reSplitGo fuel true [] cs'

/-- The call `re.split(r"(\\.|\\?|!|\\n)", full)` as executed by the source. -/
def reSplitParts (full : List Char) : List (List Char) :=
  reSplitGo (2 * full.length + 3) false [] full

/-- The buffering loop of `gen` in `app.stream_chat`: append each piece to
`buf`, flush `buf.strip()` once `len(buf) > 120`, flush the remainder at
the end when `buf` is non-empty.  The flushed payloads are the fragments
carried by the emitted events (the code wraps each payload as
`"data: " + payload + "\\n\\n"`, with literal backslash-n characters). -/
def genBufGo : List (List Char) → List Char → List (List Char)
  | [], buf => if buf ≠ [] then [pyStripList buf] else []
  | p :: ps, buf =>
    let b := buf ++ p
    if 120 < b.length then pyStripList b :: genBufGo ps [] else genBufGo ps b

/-- The stream fragments `app.stream_chat` actually emits for a full
response string. -/
def genFragments (full : String) : List String :=
  (genBufGo (reSplitParts full.data) []).map String.mk

/-- The splitter the spec describes (and the regex `(\.|\?|!|\n)` evidently
intended): split on the sentence boundary characters `.`, `?`, `!` and
newline, each separator captured as its own piece. -/
def intendedSplitGo : List Char → List Char → List (List Char)
  | seg, [] => [seg.reverse]
  | seg, c :: rest =>
    if c = '.' || c = '?' || c = '!' || c = '\n' then
      seg.reverse :: [c] :: intendedSplitGo [] rest
    else
      intendedSplitGo (c :: seg) rest

/-- The stream fragments the spec describes: the same buffering loop, fed
with sentence-boundary pieces. -/
def intendedFragments (full : String) : List String :=
  (genBufGo (intendedSplitGo [] full.data) []).map String.mk

/-! ## Text chunking (`model_wrapper._chunk_text` / `utils._chunk_text`)

The two copies of `_chunk_text` differ in one token: `model_wrapper`
compares `cut > max_chars * 0.5` (a float comparison) while `utils`
compares `cut > int(max_chars * 0.5)`.  For an integer `cut` the two
conditions agree (`cutCond_float_iff_int` below), so one embedding covers
both sources. -/

/-- Python `s.rfind(ch)` restricted to a single character: the index of the
last occurrence, as an `Option`. -/
def lastIdxOf (ch : Char) : List Char → Option Nat
  | [] => none
  | c :: rest =>
    match lastIdxOf ch rest with
    | some j => some (j + 1)
    | none => if c = ch then some 0 else none

/-- Python `s.rfind(". ")`: the start index of the last occurrence of a dot
followed by a space, as an `Option`. -/
def lastIdxOfDotSpace : List Char → Option Nat
  | [] => none
  | [_] => none
  | c :: c2 :: rest =>
    match lastIdxOfDotSpace (c2 :: rest) with
    | some j => some (j + 1)
    | none => if c = '.' && c2 = ' ' then some 0 else none

/-- Python `rfind` returns `-1` when the needle is absent. -/
def optIdxToInt : Option Nat → Int
  | some i => (i : Int)
  | none => -1

/-- The `cut` value computed on a full-size slice:
`cut = max(slice_.rfind("\n"), slice_.rfind(". "))`. -/
def chunkCut (sl : List Char) : Int :=
  max (optIdxToInt (lastIdxOf '\n' sl)) (optIdxToInt (lastIdxOfDotSpace sl))

/-- The end index chosen for the chunk starting at `start`:
`end = min(start + max_chars, len(text))`, shortened to `start + cut + 1`
when `end < len(text)` and the cut point falls after half the budget. -/
def chunkEnd (maxc : Nat) (t : List Char) (start : Nat) : Nat :=
  let e0 := min (start + maxc) t.length
  if e0 < t.length then
    let sl := pySlice t start e0
    let cut := chunkCut sl
    if ((maxc / 2 : Nat) : Int) < cut then start + cut.toNat + 1 else e0
  else e0

/-- The chunking loop: `chunks.append(text[start:end].strip()); start = end`.
`fuel` bounds the iteration count; every step advances `start` by at least
one (for `0 < maxc`), so `t.length` iterations always suffice. -/
def chunkGo (maxc : Nat) (t : List Char) : Nat → Nat → List (List Char)
  | 0, _ => []
  | fuel + 1, start =>
    if start < t.length then
      let e := chunkEnd maxc t start
      pyStripList (pySlice t start e) :: chunkGo maxc t fuel e
    else
      []

/-- The function `_chunk_text` on a character list: empty input gives `[]`; input that,
once stripped, fits in `max_chars` is returned whole; otherwise the
chunking loop runs. -/
def chunk_textList (t : List Char) (maxc : Nat) : List (List Char) :=
  if t = [] then []
  else
    let t' := pyStripList t
    if t'.length ≤ maxc then [t'] else chunkGo maxc t' t'.length 0

/-- The function `_chunk_text(text, max_chars=3800)` from `model_wrapper.py` /
`utils.py`. -/
def chunk_text (s : String) (maxc : Nat := 3800) : List String :=
  (chunk_textList s.data maxc).map String.mk

/-- Ghost variant of the chunking loop that records the chunk slices before
the final `.strip()`; used to express the reconstruction property. -/
def chunkSegsGo (maxc : Nat) (t : List Char) : Nat → Nat → List (List Char)
  | 0, _ => []
  | fuel + 1, start =>
    if start < t.length then
      let e := chunkEnd maxc t start
      pySlice t start e :: chunkSegsGo maxc t fuel e
    else
      []

/-! ## Model gateway (`model_wrapper.py`)

External effects are oracles:
  - `ModelOracle`: for a prompt and a (1-based) attempt number, either the
    Python exception raised by `_MODEL.generate_content` (`Except.error`)
    or the `_extract_text` result of its response (`none` models a `None`
    result, `some ""` a truthy response whose text strips to empty — both
    are falsy in `text or "(info) ..."`).
  - `json.loads` plus the `isinstance(arr, list)` test in `keywords` is an
    oracle `String → Except String (Option (List String))`: an exception,
    a non-list value (`none`), or a list of stringified elements.
  - the optional SDK branches of `describe_image` / `generate_embeddings`
    are `Option (Except _ _)` oracles (`none` = the `hasattr` guard fails).

Public operations are `Except String _`-valued: an `Except.error` result
would model a Python exception escaping to the caller. -/

/-- A conversation turn as handed to the gateway: a Python dict with keys
`role` and `content`; `file_id` / `original_name` are present only when
the dict carries them (`turn.get(k)` of an absent key is `None`, modelled
as `none`). -/
structure Turn where
  role : String
  content : String
  fileId : Option String := none
  originalName : Option String := none
deriving DecidableEq, Repr

/-- Outcome of one model call attempt for a given prompt. -/
abbrev ModelOracle := String → Nat → Except String (Option String)

/-- The call `_call_model` under the tenacity decorator
`retry(wait=wait_exponential(min=1, max=8), stop=stop_after_attempt(3),
retry=retry_if_exception_type(Exception))`: up to 3 attempts, the error of
the last attempt propagating (wrapped in a `RetryError`) after exhaustion.
The inter-attempt sleeping is wall-clock behaviour and is not modelled. -/
def call_model (o : ModelOracle) (prompt : String) : Except String (Option String) :=
  match o prompt 1 with
  | .ok v => .ok v
  | .error _ =>
    match o prompt 2 with
    | .ok v => .ok v
    | .error _ =>
      match o prompt 3 with
      | .ok v => .ok v
      | .error e => .error e

/-- Number of attempts `call_model` makes before returning. -/
def attemptsUsed (o : ModelOracle) (prompt : String) : Nat :=
  if (o prompt 1).isOk then 1 else if (o prompt 2).isOk then 2 else 3

/-- The function `_generate`: guard on the configured model, call with retry, and catch
every exception, degrading it to an `"(error) ..."` string.  `avail`
models `_MODEL is not None` (equivalently `ModelWrapper.available`). -/
def generate (avail : Bool) (o : ModelOracle) (prompt : String) : String :=
  if !avail then "(fallback) Model not configured."
  else
    match call_model o prompt with
    | .ok t =>
      match t with
      | some s => if s = "" then "(info) Empty model response." else s
      | none => "(info) Empty model response."
    | .error e => "(error) " ++ e

/-- Python `l[-8:]`. -/
def lastN (n : Nat) (l : List α) : List α :=
  l.drop (l.length - n)

/-- Prompt assembly of `ModelWrapper.chat_response`: a fixed system line,
the last 8 non-empty history turns rendered as `User:`/`Assistant:` lines,
then the new message and an `Assistant:` cue. -/
def buildChatPrompt (userMessage : String) (history : List Turn) : String :=
  let system :=
    "You are WORISON — Wisdom-Oriented Responsive Intelligent Support & Operations Network. " ++
    "You are a helpful, precise, and reliable AI assistant focused on learning, analysis, and guidance."
  let histLines := (lastN 8 history).filterMap fun turn =>
    if turn.content = "" then none
    else
      let label := if turn.role = "assistant" || turn.role = "bot" then "Assistant" else "User"
      some (label ++ ": " ++ turn.content)
  String.intercalate "\n" ((("System: " ++ system) :: histLines) ++ ["User: " ++ userMessage, "Assistant:"])

/-- The method `ModelWrapper.chat_response`. -/
def chat_responseE (avail : Bool) (o : ModelOracle) (userMessage : String) (history : List Turn) :
    Except String String :=
  if !avail then .ok "(fallback) Model not available."
  else .ok (generate avail o (buildChatPrompt userMessage history))

/-- The method `ModelWrapper.summarize`: chunk, summarize each chunk, synthesize. -/
def summarizeE (avail : Bool) (o : ModelOracle) (text : String) (bullets : Nat) :
    Except String String :=
  if !avail then .ok "(fallback) Model not available."
  else if pyStrip text = "" then .ok "(info) No text provided."
  else
    let parts := chunk_text text 3800
    let pieces := (List.range parts.length).zip parts |>.map fun ip =>
      generate avail o ("Summarize part " ++ toString (ip.1 + 1) ++ "/" ++ toString parts.length ++
        " into " ++ toString bullets ++ " bullet points:\n\n" ++ ip.2)
    .ok (generate avail o
      ("Combine the partial summaries into a final concise summary with " ++ toString bullets ++
        " numbered bullet points:\n\n" ++ String.intercalate "\n\n" pieces))

/-- The method `ModelWrapper.keywords`: ask for a JSON array; on a parse failure or a
non-list value, fall back to the comma/newline splitter. -/
def keywordsE (avail : Bool) (o : ModelOracle)
    (jsonP : String → Except String (Option (List String))) (text : String) (topK : Nat) :
    Except String (List String) :=
  if !avail then .ok []
  else
    let raw := generate avail o
      ("Extract the top " ++ toString topK ++ " keywords. Return ONLY a JSON array of strings.\n\n" ++ text)
    match jsonP raw with
    | .ok (some arr) => .ok ((arr.map pyStrip).take topK)
    | .ok none => .ok (keywordsFallback raw topK)
    | .error _ => .ok (keywordsFallback raw topK)

/-- The method `ModelWrapper.explain_pdf_text`: same chunk → partials → synthesis
shape as `summarize`. -/
def explain_pdf_textE (avail : Bool) (o : ModelOracle) (text : String) (bullets : Nat) :
    Except String String :=
  if !avail then .ok "(fallback) Model not available."
  else if pyStrip text = "" then .ok "(info) No text to explain."
  else
    let parts := chunk_text text 3800
    let pieces := (List.range parts.length).zip parts |>.map fun ip =>
      generate avail o ("Part " ++ toString (ip.1 + 1) ++ "/" ++ toString parts.length ++
        ": Explain in plain language and list 2 takeaways:\n\n" ++ ip.2)
    .ok (generate avail o
      ("Using the partial explanations, provide:\n1) Short explanation (3–5 sentences)\n2) " ++
        toString bullets ++ " numbered key takeaways\n\n" ++ String.intercalate "\n\n" pieces))

/-- The method `ModelWrapper.describe_image`: try the typed SDK branch (guarded by
`hasattr`, its exceptions swallowed by `except: pass`), else degrade to a
plain text generation. -/
def describe_imageE (avail : Bool) (sdk : Option (Except String (Option String)))
    (o : ModelOracle) (imagePath : String) : Except String String :=
  if !avail then .ok "(fallback) Model not available."
  else
    match sdk with
    | some (.ok t) =>
      .ok (match t with
        | some s => if s = "" then "(info) No description." else s
        | none => "(info) No description.")
    | some (.error _) => .ok (generate avail o ("Describe the image at path: " ++ imagePath))
    | none => .ok (generate avail o ("Describe the image at path: " ++ imagePath))

/-- The method `ModelWrapper.generate_embeddings`: embedding vectors are abstract
(`α`); the SDK oracle returns the `data` items, each optionally carrying an
`"embedding"` entry; any exception degrades to `[]`. -/
def generate_embeddingsE {α : Type} (avail : Bool) (texts : List String)
    (sdk : Option (Except String (List (Option α)))) : Except String (List α) :=
  if !avail || texts.isEmpty then .ok []
  else
    match sdk with
    | some (.ok data) => .ok (data.filterMap id)
    | some (.error _) => .ok []
    | none => .ok []

/-! ## Persistence and the chat handlers (`app.py`, `chat_store.py`,
`database.py`)

`chat_sessions` and `conversations` are modelled as lists of rows in
insertion order (the `conversations.id` AUTOINCREMENT key makes
`ORDER BY id` return insertion order, so a list models the table
faithfully for the queries the handlers issue). -/

/-- A row of `chat_sessions`. -/
structure SessionRow where
  id : String
  userId : String
  title : String
deriving DecidableEq, Repr

/-- A row of `conversations` (`save_message` inserts
`(user_id, role, content, created_at, session_id)`; the timestamp plays no
role in any claim and is omitted). -/
structure MessageRow where
  userId : String
  role : String
  content : String
  sessionId : Option String
deriving DecidableEq, Repr

/-- The database state touched by the chat handlers. -/
structure DB where
  sessions : List SessionRow
  messages : List MessageRow
deriving DecidableEq, Repr

/-- The query `chat_store.load_session_messages`:
`SELECT role, content FROM conversations WHERE user_id=? AND session_id=?
ORDER BY id`, each row returned as a dict with exactly the keys `role` and
`content` — in particular `file_id` and `original_name` are absent from
every returned turn. -/
def load_session_messages (db : DB) (uid sid : String) : List Turn :=
  (db.messages.filter fun m => m.userId = uid && m.sessionId = some sid).map
    fun m => { role := m.role, content := m.content }

/-- The insert `chat_store.save_message`: append one row to `conversations`. -/
def save_message (db : DB) (uid role content : String) (sessionId : Option String) : DB :=
  { db with messages := db.messages ++ [⟨uid, role, content, sessionId⟩] }

/-- The file-grounding scan in `app.chat`: walk the history backwards,
stop at the first turn with role `file`, and prepend that file's extracted
text as a delimited block — but only when the turn carries a truthy
`file_id` and the extracted text is non-empty.  `getText` models
`_get_file_text`. -/
def injectFileContext (history : List Turn) (userInput : String) (getText : String → String) :
    String :=
  match history.reverse.find? (fun t => t.role = "file") with
  | none => userInput
  | some turn =>
    let fileId := turn.fileId.getD ""
    if fileId ≠ "" then
      let fileText := getText fileId
      if fileText ≠ "" then
        "\n\n--- File: " ++ turn.originalName.getD "" ++ " ---\n" ++ fileText ++ "\n---\n" ++ userInput
      else userInput
    else userInput

/-- The JSON body `app.chat` answers with: `session_id` (present only on
success) and `response`. -/
structure ChatReply where
  sessionId : Option String
  response : String
deriving DecidableEq, Repr

/-- The `app.chat` handler for an authenticated user `uid`, given the
client-supplied message and optional session id.  `freshSid` stands for
the generated `str(uuid.uuid4())`; `avail`/`o` drive the model gateway and
`getText` models `_get_file_text`.  Faithful to the source order: load
history, reject empty input, lazily create a session (with no ownership or
existence check on a client-supplied id), inject file context, call the
model, persist the user and assistant rows, reply. -/
def chat_step (db : DB) (uid rawMsg : String) (sidOpt : Option String) (freshSid : String)
    (avail : Bool) (o : ModelOracle) (getText : String → String) : DB × ChatReply :=
  let userInput := pyStrip rawMsg
  -- `if session_id` / `if not session_id`: Python truthiness, so a
  -- client-supplied `""` behaves like an absent session id in `chat`.
  let sidT := match sidOpt with
    | some s => if s = "" then none else some s
    | none => none
  let history := match sidT with
    | some sid => load_session_messages db uid sid
    | none => []
  if userInput = "" then (db, ⟨none, "(error) No input provided."⟩)
  else
    let sid := sidT.getD freshSid
    let db1 := match sidT with
      | none => { db with sessions := db.sessions ++ [⟨freshSid, uid, pyTake (pyStrip userInput) 60⟩] }
      | some _ => db
    let composed := injectFileContext history userInput getText
    match chat_responseE avail o composed history with
    | .ok bot =>
      let db2 := save_message (save_message db1 uid "user" composed (some sid))
        uid "assistant" bot (some sid)
      (db2, ⟨some sid, bot⟩)
    | .error e => (db1, ⟨none, "(error) " ++ e⟩)

/-- What `app.stream_chat` sends back: either a plain JSON error body, or
the event stream (here: the list of flushed fragment payloads). -/
inductive StreamOut where
  | jsonError (resp : String)
  | events (fragments : List String)
deriving DecidableEq, Repr

/-- The `app.stream_chat` handler: same validation as `chat`, but it never
creates a session row, saves both turns with the client-supplied session
id as-is (possibly null), and re-frames the full response through `gen`.
The wrapper call sits outside any `try`, so a gateway exception would
escape (`jsonError` with the raw message models that unreachable path). -/
def stream_chat_step (db : DB) (uid rawMsg : String) (sidOpt : Option String)
    (avail : Bool) (o : ModelOracle) : DB × StreamOut :=
  let userInput := pyStrip rawMsg
  -- history is loaded only for a truthy session id, but the rows are saved
  -- with the client-supplied value as-is (stream_chat never rewrites it)
  let history := match (match sidOpt with
      | some s => if s = "" then none else some s
      | none => none) with
    | some sid => load_session_messages db uid sid
    | none => []
  if userInput = "" then (db, .jsonError "(error) No input provided.")
  else
    match chat_responseE avail o userInput history with
    | .ok full =>
      let db1 := save_message (save_message db uid "user" userInput sidOpt)
        uid "assistant" full sidOpt
      (db1, .events (genFragments full))
    | .error e => (db, .jsonError e)

/-- The ownership invariant claimed by the spec: every message row with a
non-null session id references a `chat_sessions` row owned by the same
user. -/
def sessionOwnershipInv (db : DB) : Bool :=
  db.messages.all fun m =>
    match m.sessionId with
    | none => true
    | some sid => db.sessions.any fun s => s.id = sid && s.userId = m.userId

/-- The ownership invariant in propositional form. -/
def invP (db : DB) : Prop :=
  ∀ m ∈ db.messages, ∀ sid, m.sessionId = some sid →
    ∃ r ∈ db.sessions, r.id = sid ∧ r.userId = m.userId

/-! ## Extracted-text cache (`app._get_file_text`, `app.upload_file`) -/

/-- The filesystem state relevant to one stored unique filename: its cache
file (`FILES_DIR/<name>.txt`) and whether the uploaded file itself exists
under `UPLOAD_FOLDER`. -/
structure FileEntry where
  cached : Option String
  uploaded : Bool
deriving DecidableEq, Repr

/-- Outcome of the extension-dispatched extraction routine for the file:
either the returned text or a raised exception. -/
abbrev ExtractOracle := Except String String

/-- The function `app._get_file_text` for one stored filename.  Returns the text handed
to the caller, the filesystem state afterwards, and a ghost flag recording
whether the extraction routine was invoked.  Cache hits are read back
verbatim; an extraction exception degrades to `""`; a result is cached
only when non-empty and not an `(error)` sentinel; sentinels are returned
as `""`. -/
def get_file_text (st : FileEntry) (extract : ExtractOracle) : String × FileEntry × Bool :=
  match st.cached with
  | some c => (c, st, false)
  | none =>
    if !st.uploaded then ("", st, false)
    else
      let text := match extract with
        | .ok t => t
        | .error _ => ""
      let st' :=
        if text ≠ "" && !(pyStartswith text "(error)") then { st with cached := some text } else st
      ((if pyStartswith text "(error)" then "" else text), st', true)

/-- The `text_available` field `/upload` reports:
`bool(_get_file_text(unique_name))`. -/
def upload_text_available (st : FileEntry) (extract : ExtractOracle) : Bool :=
  (get_file_text st extract).1 ≠ ""

/-! ## Shared lemmas -/

/-- String append with a non-empty string on the left is non-empty. -/
theorem append_ne_empty_of_left (a b : String) (h : a.data ≠ []) : a ++ b ≠ "" := by
  intro hab
  have hd := congrArg String.data hab
  rw [String.data_append] at hd
  exact h (List.append_eq_nil.mp hd).1

/-- The function `generate` never returns the empty string. -/
theorem generate_ne_empty (avail : Bool) (o : ModelOracle) (p : String) :
    generate avail o p ≠ "" := by
  unfold generate
  split
  · decide
  · rcases call_model o p with e | t
    · exact append_ne_empty_of_left _ _ (by decide)
    · rcases t with _ | s
      · decide
      · simp only
        split
        · decide
        · assumption

/-- The gateway `chat_response` always returns normally (no exception), with a
non-empty value. -/
theorem chat_responseE_ok (avail : Bool) (o : ModelOracle) (m : String) (h : List Turn) :
    ∃ s, chat_responseE avail o m h = .ok s ∧ s ≠ "" := by
  unfold chat_responseE
  split
  · exact ⟨_, rfl, by decide⟩
  · exact ⟨_, rfl, generate_ne_empty _ _ _⟩

/-- Applying `dropWhile` twice equals applying it once. -/
theorem dropWhile_dropWhile (p : α → Bool) (l : List α) :
    (l.dropWhile p).dropWhile p = l.dropWhile p := by
  cases h : l.dropWhile p with
  | nil => rfl
  | cons a as =>
    have hpa : p a = false := by
      have hh := List.head?_dropWhile_not p l
      rw [h] at hh
      simpa using hh
    rw [List.dropWhile_cons_of_neg (by simp [hpa])]

/-- Both-ends `dropWhile` stripping is idempotent. -/
theorem stripEnds_idem (p : α → Bool) (l : List α) :
    ((((((l.dropWhile p).reverse.dropWhile p).reverse).dropWhile p).reverse.dropWhile p).reverse)
      = ((l.dropWhile p).reverse.dropWhile p).reverse := by
  set y := l.dropWhile p with hy
  set z := y.reverse.dropWhile p with hz
  have hA : z.reverse.dropWhile p = z.reverse := by
    rcases hzz : z.getLast? with _ | b
    · rw [List.getLast?_eq_none_iff] at hzz
      simp [hzz]
    · have hyr : y.reverse.getLast? = some b := by
        conv_lhs => rw [← List.takeWhile_append_dropWhile p y.reverse]
        rw [List.getLast?_append, ← hz, hzz]
        rfl
      have hhead : y.head? = some b := by rwa [List.getLast?_reverse] at hyr
      have hpb : p b = false := by
        have hnot := List.head?_dropWhile_not p l
        rw [← hy, hhead] at hnot
        exact hnot
      have hzr : z.reverse.head? = some b := by rwa [List.head?_reverse]
      cases hzr2 : z.reverse with
      | nil => rfl
      | cons c cs =>
        rw [hzr2] at hzr
        simp only [List.head?_cons, Option.some.injEq] at hzr
        rw [List.dropWhile_cons_of_neg (by simp [hzr, hpb])]
  rw [hA, List.reverse_reverse, dropWhile_dropWhile]

/-- Stripping with `pyStripList` is idempotent. -/
theorem pyStripList_idem (l : List Char) : pyStripList (pyStripList l) = pyStripList l :=
  stripEnds_idem pyIsSpace l

/-- Stripping with `pyStrip` is idempotent. -/
theorem pyStrip_idem (s : String) : pyStrip (pyStrip s) = pyStrip s := by
  unfold pyStrip
  exact congrArg String.mk (pyStripList_idem s.data)

/-! ## Claim C10 -/

/-- Claim C10: for every authenticated `POST /chat` or `POST /stream_chat`
request whose message is missing, empty, or whitespace-only (i.e. strips
to the empty string), the handler returns the marker
`"(error) No input provided."` and leaves the database unchanged: no
session row is created and no message row is inserted. -/
theorem empty_message_leaves_db_unchanged
    (db : DB) (uid rawMsg : String) (sidOpt : Option String) (freshSid : String)
    (avail : Bool) (o : ModelOracle) (getText : String → String)
    (h : pyStrip rawMsg = "") :
    chat_step db uid rawMsg sidOpt freshSid avail o getText
        = (db, ⟨none, "(error) No input provided."⟩) ∧
      stream_chat_step db uid rawMsg sidOpt avail o
        = (db, .jsonError "(error) No input provided.") := by
  constructor
  · unfold chat_step
    simp [h]
  · unfold stream_chat_step
    simp [h]

/-- Witness for C10 at a whitespace-only message. -/
theorem empty_message_leaves_db_unchanged_witness :
    chat_step ⟨[], []⟩ "alice" "  \n " none "S1" false (fun _ _ => .error "down") (fun _ => "")
        = (⟨[], []⟩, ⟨none, "(error) No input provided."⟩) ∧
      stream_chat_step ⟨[], []⟩ "alice" "  \n " none false (fun _ _ => .error "down")
        = (⟨[], []⟩, .jsonError "(error) No input provided.") :=
  empty_message_leaves_db_unchanged ⟨[], []⟩ "alice" "  \n " none "S1" false
    (fun _ _ => .error "down") (fun _ => "") (by decide)

/-! ## Claim C1 -/

/-- Claim C1 (code bug): the spec says an authenticated `POST /chat` in a
session whose history contains a `file` turn injects the most recent
file's extracted text into the outgoing user message as a
`--- File: <name> ---` block.  The code cannot do this:
`load_session_messages` selects only `role` and `content`, so
`turn.get("file_id")` is `None` for every loaded turn and the injection
branch is dead.  Evaluated at a session whose history holds a `file` turn
and with extraction available (`getText` returns `"FILE CONTENTS"`), the
saved user row and the prompt are the raw message, with no file block;
the second conjunct shows the same scan would inject the block if the
loaded turn carried its `file_id`. -/
theorem chat_file_injection_dead :
    (chat_step ⟨[⟨"S", "alice", "t"⟩], [⟨"alice", "file", "report.pdf", some "S"⟩]⟩
        "alice" "What does it say?" (some "S") "F" false
        (fun _ _ => .error "down") (fun _ => "FILE CONTENTS")
      = (⟨[⟨"S", "alice", "t"⟩],
          [⟨"alice", "file", "report.pdf", some "S"⟩,
           ⟨"alice", "user", "What does it say?", some "S"⟩,
           ⟨"alice", "assistant", "(fallback) Model not available.", some "S"⟩]⟩,
         ⟨some "S", "(fallback) Model not available."⟩)) ∧
    injectFileContext [⟨"file", "report.pdf", some "f1_report.pdf", some "report.pdf"⟩]
        "What does it say?" (fun _ => "FILE CONTENTS")
      = "\n\n--- File: report.pdf ---\nFILE CONTENTS\n---\nWhat does it say?" := by
  constructor
  · rfl
  · rfl

/-! ## Claim C2 -/

set_option maxRecDepth 40000 in
/-- Claim C2 (code bug): the spec says the `/stream_chat` event stream is
obtained by splitting the full response on the sentence boundaries `.`,
`?`, `!`, newline and flushing a buffer once it exceeds 120 characters.
The code passes `r"(\\.|\\?|!|\\n)"` to `re.split` — with escaped
backslashes — which matches backslash sequences and the empty string, so
the response is split at every character and the buffer flushes at
exactly 121 characters regardless of sentence boundaries.  At a
130-character boundary-free response the code emits two fragments of 121
and 9 characters, where the spec's segmentation (`intendedFragments`)
emits the single 130-character fragment. -/
theorem stream_chat_split_divergence :
    genFragments (String.mk (List.replicate 130 'a'))
        = [String.mk (List.replicate 121 'a'), String.mk (List.replicate 9 'a')] ∧
      intendedFragments (String.mk (List.replicate 130 'a'))
        = [String.mk (List.replicate 130 'a')] ∧
      genFragments "Hello there. How are you?" = ["Hello there. How are you?"] := by
  refine ⟨by decide, by decide, by decide⟩

/-! ## Claim C6 -/

/-- Claim C6: for every uploaded file whose extraction fails — the
extraction routine returns an `(error)` sentinel, returns nothing at all
(the empty string), or raises — and whose text is not already cached,
`_get_file_text` writes no cache entry, returns the empty string rather
than the sentinel, and `/upload` reports `text_available` as `false`. -/
theorem extraction_failure_not_cached
    (st : FileEntry) (extract : ExtractOracle)
    (hc : st.cached = none)
    (hfail : match extract with
      | .ok t => t = "" ∨ pyStartswith t "(error)" = true
      | .error _ => True) :
    (get_file_text st extract).1 = "" ∧
      (get_file_text st extract).2.1.cached = none ∧
      upload_text_available st extract = false := by
  unfold upload_text_available get_file_text
  rw [hc]
  simp only
  rcases hup : st.uploaded with _ | _
  · simp [hc]
  · simp only [Bool.not_true, Bool.false_eq_true, if_false]
    rcases extract with e | t
    · simp [hc, pyStartswith]
    · rcases hfail with h0 | hsent
      · subst h0
        simp [hc, pyStartswith]
      · simp [hsent, hc]

/-- Witness for C6: empty cache, upload present, extraction yields the PDF
sentinel. -/
theorem extraction_failure_not_cached_witness :
    (get_file_text ⟨none, true⟩ (.ok "(error) Could not extract text from PDF.")).1 = "" ∧
      (get_file_text ⟨none, true⟩ (.ok "(error) Could not extract text from PDF.")).2.1.cached
        = none ∧
      upload_text_available ⟨none, true⟩ (.ok "(error) Could not extract text from PDF.")
        = false :=
  extraction_failure_not_cached ⟨none, true⟩ (.ok "(error) Could not extract text from PDF.")
    rfl (by right; decide)

/-! ## Claim C8 -/

/-- Claim C8: once a first extraction for a stored filename succeeds (a
non-empty, non-sentinel text `t`), the result is cached, and every later
`_get_file_text` call for that filename returns the identical text from
the cache without invoking any extraction routine — whatever a re-run of
extraction would now produce (`extract'` is universally quantified, and
the ghost flag of the second call is `false`). -/
theorem file_text_cache_idempotent
    (st : FileEntry) (t : String) (extractLater : ExtractOracle)
    (hc : st.cached = none) (hup : st.uploaded = true)
    (hne : t ≠ "") (hsent : pyStartswith t "(error)" = false) :
    (get_file_text st (.ok t)).1 = t ∧
      (get_file_text st (.ok t)).2.1.cached = some t ∧
      (get_file_text (get_file_text st (.ok t)).2.1 extractLater).1 = t ∧
      (get_file_text (get_file_text st (.ok t)).2.1 extractLater).2.2 = false := by
  have h1 : get_file_text st (.ok t) = (t, ⟨some t, st.uploaded⟩, true) := by
    unfold get_file_text
    rw [hc]
    simp [hup, hne, hsent]
  rw [h1]
  exact ⟨rfl, rfl, rfl, rfl⟩

/-- Witness for C8 at a concrete successful extraction. -/
theorem file_text_cache_idempotent_witness :
    (get_file_text ⟨none, true⟩ (.ok "hello world")).1 = "hello world" ∧
      (get_file_text ⟨none, true⟩ (.ok "hello world")).2.1.cached = some "hello world" ∧
      (get_file_text (get_file_text ⟨none, true⟩ (.ok "hello world")).2.1
          (.error "disk gone")).1 = "hello world" ∧
      (get_file_text (get_file_text ⟨none, true⟩ (.ok "hello world")).2.1
          (.error "disk gone")).2.2 = false :=
  file_text_cache_idempotent ⟨none, true⟩ "hello world" (.error "disk gone")
    rfl rfl (by decide) (by decide)

/-! ## Claim C9 -/

/-- A non-empty character list makes a non-empty string. -/
theorem mk_ne_empty_of_ne_nil (q : List Char) (h : q ≠ []) : String.mk q ≠ "" := by
  intro hq
  exact h (congrArg String.data hq)

/-- Invariant of the keyword-fallback loop: starting below the `top_k`
budget with a duplicate-free list of non-empty strings, the loop returns
at most `top_k` strings, duplicate-free and non-empty. -/
theorem kwLoop_spec (topK : Nat) (ps : List (List Char)) :
    ∀ out : List String, out.Nodup → (∀ s ∈ out, s ≠ "") → out.length < topK →
      (kwLoop topK ps out).length ≤ topK ∧ (kwLoop topK ps out).Nodup ∧
        ∀ s ∈ kwLoop topK ps out, s ≠ "" := by
  induction ps with
  | nil =>
    intro out h1 h2 h3
    exact ⟨le_of_lt h3, h1, h2⟩
  | cons p ps ih =>
    intro out h1 h2 h3
    simp only [kwLoop]
    by_cases hq : pyStripSet p ≠ [] ∧ ¬ (String.mk (pyStripSet p)) ∈ out
    · rw [if_pos hq]
      have hno : (out ++ [String.mk (pyStripSet p)]).Nodup := by
        simp only [List.nodup_append, List.nodup_cons, List.not_mem_nil, not_false_iff,
          List.nodup_nil, and_true, List.disjoint_singleton]
        exact ⟨h1, by simpa using hq.2⟩
      have hne : ∀ s ∈ out ++ [String.mk (pyStripSet p)], s ≠ "" := by
        intro s hs
        rcases List.mem_append.mp hs with h | h
        · exact h2 s h
        · rw [List.mem_singleton] at h
          subst h
          exact mk_ne_empty_of_ne_nil _ hq.1
      have hlen : (out ++ [String.mk (pyStripSet p)]).length = out.length + 1 := by
        simp
      split
      · exact ⟨by omega, hno, hne⟩
      · next hstop => exact ih _ hno hne (by omega)
    · rw [if_neg hq]
      split
      · exact ⟨le_of_lt h3, h1, h2⟩
      · exact ih _ h1 h2 h3

/-- Claim C9 counterexample: with `top_k = 0` and the (non-JSON) raw model
output `"apple"`, the fallback parser returns one keyword, not at most
zero — the `break` test runs only after the append. -/
theorem keywords_fallback_topk_zero_overflow :
    keywordsFallback "apple" 0 = ["apple"] ∧
      ¬ ((keywordsFallback "apple" 0).length ≤ 0) := by
  decide

/-- Claim C9 amended: for every raw model output and every `top_k ≥ 1`,
the keyword fallback parser returns at most `top_k` strings, all
non-empty and pairwise distinct.  (For `top_k ≤ 0` one keyword can still
be returned, as the counterexample shows.) -/
theorem keywords_fallback_bounded (raw : String) (topK : Nat) (h : 1 ≤ topK) :
    (keywordsFallback raw topK).length ≤ topK ∧ (keywordsFallback raw topK).Nodup ∧
      ∀ s ∈ keywordsFallback raw topK, s ≠ "" := by
  unfold keywordsFallback
  exact kwLoop_spec topK _ [] (by simp) (by simp) (by simpa using h)

/-- Witness for the amended C9 at `top_k = 2` over a malformed output. -/
theorem keywords_fallback_bounded_witness :
    (keywordsFallback "apple, banana,apple\ncherry" 2).length ≤ 2 ∧
      (keywordsFallback "apple, banana,apple\ncherry" 2).Nodup ∧
      ∀ s ∈ keywordsFallback "apple, banana,apple\ncherry" 2, s ≠ "" :=
  keywords_fallback_bounded "apple, banana,apple\ncherry" 2 (by decide)

/-! ## Claim C3 -/

/-- The executable and propositional invariants agree. -/
theorem sessionOwnershipInv_iff (db : DB) : sessionOwnershipInv db = true ↔ invP db := by
  unfold sessionOwnershipInv invP
  rw [List.all_eq_true]
  constructor
  · intro h m hm sid hsid
    have hx := h m hm
    rw [hsid, List.any_eq_true] at hx
    obtain ⟨r, hr, hrr⟩ := hx
    rw [Bool.and_eq_true, decide_eq_true_eq, decide_eq_true_eq] at hrr
    exact ⟨r, hr, hrr.1, hrr.2⟩
  · intro h m hm
    cases hsid : m.sessionId with
    | none => rfl
    | some sid =>
      obtain ⟨r, hr, h1, h2⟩ := h m hm sid hsid
      rw [List.any_eq_true]
      exact ⟨r, hr, by rw [Bool.and_eq_true, decide_eq_true_eq, decide_eq_true_eq]; exact ⟨h1, h2⟩⟩

/-- Appending session rows preserves the invariant. -/
theorem invP_mono_sessions (db : DB) (extra : List SessionRow) (h : invP db) :
    invP { db with sessions := db.sessions ++ extra } := by
  intro m hm sid hsid
  obtain ⟨r, hr, h1, h2⟩ := h m hm sid hsid
  exact ⟨r, List.mem_append_left _ hr, h1, h2⟩

/-- Saving with `save_message` preserves the invariant when the saved session id (if
any) belongs to a session of the writing user. -/
theorem invP_save (db : DB) (uid role content : String) (sidOpt : Option String)
    (h : invP db) (hs : ∀ s, sidOpt = some s → ∃ r ∈ db.sessions, r.id = s ∧ r.userId = uid) :
    invP (save_message db uid role content sidOpt) := by
  intro m hm sid hsid
  unfold save_message at hm
  simp only at hm
  rcases List.mem_append.mp hm with hold | hnew
  · exact h m hold sid hsid
  · rw [List.mem_singleton] at hnew
    subst hnew
    simp only at hsid
    obtain ⟨r, hr, h1, h2⟩ := hs sid hsid
    exact ⟨r, hr, h1, h2⟩

/-- Claim C3 counterexample: the invariant is violated in a reachable
state.  Alice's `/chat` without a session id creates session `S1`; Mallory
then posts `/chat` with `session_id = "S1"` and the handler saves
Mallory's rows against Alice's session without any ownership check.  The
first conjunct shows the intermediate state still satisfied the
invariant; the second shows the final state violates it. -/
theorem session_ownership_violated_reachable :
    sessionOwnershipInv
        (chat_step ⟨[], []⟩ "alice" "hello there" none "S1" false
          (fun _ _ => .error "down") (fun _ => "")).1 = true ∧
      sessionOwnershipInv
        (chat_step
          (chat_step ⟨[], []⟩ "alice" "hello there" none "S1" false
            (fun _ _ => .error "down") (fun _ => "")).1
          "mallory" "hi" (some "S1") "S2" false
          (fun _ _ => .error "down") (fun _ => "")).1 = false := by
  decide

/-- Claim C3 amended: both `POST /chat` and `POST /stream_chat` preserve
the message-references-own-session invariant, provided the client-supplied
session id (when present) is the id of a session row owned by the
requesting user.  Without that proviso the invariant fails (see the
counterexample): the handlers never validate the supplied id. -/
theorem session_ownership_preserved_when_owned
    (db : DB) (uid rawMsg : String) (sidOpt : Option String) (freshSid : String)
    (avail : Bool) (o : ModelOracle) (getText : String → String)
    (hinv : sessionOwnershipInv db = true)
    (hown : ∀ s, sidOpt = some s → ∃ r ∈ db.sessions, r.id = s ∧ r.userId = uid) :
    sessionOwnershipInv (chat_step db uid rawMsg sidOpt freshSid avail o getText).1 = true ∧
      sessionOwnershipInv (stream_chat_step db uid rawMsg sidOpt avail o).1 = true := by
  rw [sessionOwnershipInv_iff] at hinv
  rw [sessionOwnershipInv_iff, sessionOwnershipInv_iff]
  by_cases hmsg : pyStrip rawMsg = ""
  · constructor
    · unfold chat_step
      simp [hmsg]
      exact hinv
    · unfold stream_chat_step
      simp [hmsg]
      exact hinv
  · constructor
    · -- /chat
      unfold chat_step
      simp only [if_neg hmsg]
      rcases sidOpt with _ | s
      · obtain ⟨bot, hbot, -⟩ := chat_responseE_ok avail o
          (injectFileContext [] (pyStrip rawMsg) getText) []
        simp only [hbot]
        refine invP_save _ _ _ _ _ (invP_save _ _ _ _ _ (invP_mono_sessions _ _ hinv) ?_) ?_
        all_goals
          intro s hs
          simp only [Option.getD] at hs
          injection hs with hs'
          subst hs'
          exact ⟨⟨freshSid, uid, pyTake (pyStrip (pyStrip rawMsg)) 60⟩,
            List.mem_append_right _ (List.mem_singleton.mpr rfl), rfl, rfl⟩
      · by_cases hs0 : s = ""
        · subst hs0
          simp only [reduceIte]
          obtain ⟨bot, hbot, -⟩ := chat_responseE_ok avail o
            (injectFileContext [] (pyStrip rawMsg) getText) []
          simp only [hbot]
          refine invP_save _ _ _ _ _ (invP_save _ _ _ _ _ (invP_mono_sessions _ _ hinv) ?_) ?_
          all_goals
            intro s' hs'
            simp only [Option.getD] at hs'
            injection hs' with hs''
            subst hs''
            exact ⟨⟨freshSid, uid, pyTake (pyStrip (pyStrip rawMsg)) 60⟩,
              List.mem_append_right _ (List.mem_singleton.mpr rfl), rfl, rfl⟩
        · simp only [if_neg hs0]
          obtain ⟨bot, hbot, -⟩ := chat_responseE_ok avail o
            (injectFileContext (load_session_messages db uid s) (pyStrip rawMsg) getText)
            (load_session_messages db uid s)
          simp only [hbot]
          refine invP_save _ _ _ _ _ (invP_save _ _ _ _ _ hinv ?_) ?_
          all_goals
            intro s' hs'
            simp only [Option.getD] at hs'
            injection hs' with hs''
            subst hs''
            exact hown s rfl
    · -- /stream_chat
      unfold stream_chat_step
      simp only [if_neg hmsg]
      rcases sidOpt with _ | s
      · obtain ⟨full, hfull, -⟩ := chat_responseE_ok avail o (pyStrip rawMsg) []
        simp only [hfull]
        refine invP_save _ _ _ _ _ (invP_save _ _ _ _ _ hinv ?_) ?_
        all_goals intro s hs; cases hs
      · by_cases hs0 : s = ""
        · subst hs0
          simp only [reduceIte]
          obtain ⟨full, hfull, -⟩ := chat_responseE_ok avail o (pyStrip rawMsg) []
          simp only [hfull]
          refine invP_save _ _ _ _ _ (invP_save _ _ _ _ _ hinv ?_) ?_
          all_goals intro s' hs'; exact hown s' hs'
        · simp only [if_neg hs0]
          obtain ⟨full, hfull, -⟩ := chat_responseE_ok avail o (pyStrip rawMsg)
            (load_session_messages db uid s)
          simp only [hfull]
          refine invP_save _ _ _ _ _ (invP_save _ _ _ _ _ hinv ?_) ?_
          all_goals intro s' hs'; exact hown s' hs'

/-- Witness for the amended C3: Alice posting into her own session. -/
theorem session_ownership_preserved_witness :
    sessionOwnershipInv
        (chat_step ⟨[⟨"S1", "alice", "hello"⟩], []⟩ "alice" "more" (some "S1") "S2" false
          (fun _ _ => .error "down") (fun _ => "")).1 = true ∧
      sessionOwnershipInv
        (stream_chat_step ⟨[⟨"S1", "alice", "hello"⟩], []⟩ "alice" "more" (some "S1") false
          (fun _ _ => .error "down")).1 = true :=
  session_ownership_preserved_when_owned ⟨[⟨"S1", "alice", "hello"⟩], []⟩ "alice" "more"
    (some "S1") "S2" false (fun _ _ => .error "down") (fun _ => "")
    (by decide)
    (fun s hs => ⟨⟨"S1", "alice", "hello"⟩, List.mem_singleton.mpr rfl,
      Option.some.inj hs, rfl⟩)

/-! ## Claim C5 -/

/-- Claim C5 counterexample: an authenticated `POST /stream_chat` with a
non-empty message and no session identifier creates *no* session row —
only `chat` creates sessions.  From the empty database, the stream
handler saves its two message rows (with a null session id, second
conjunct) yet leaves `chat_sessions` empty (first conjunct), refuting the
claim's universal statement over both endpoints. -/
theorem stream_chat_creates_no_session :
    (stream_chat_step ⟨[], []⟩ "alice" "Hello" none false
        (fun _ _ => .error "down")).1.sessions = [] ∧
      (stream_chat_step ⟨[], []⟩ "alice" "Hello" none false
        (fun _ _ => .error "down")).1.messages
        = [⟨"alice", "user", "Hello", none⟩,
           ⟨"alice", "assistant", "(fallback) Model not available.", none⟩] := by
  decide

/-- Claim C5 amended: for `POST /chat` with a non-empty message and no
session identifier, exactly one session row is created, titled with the
first 60 characters of the (stripped) message, exactly two message rows
are appended — the user turn then the assistant reply — and the reply
carries the new `session_id` and a non-empty `response`.  `POST
/stream_chat` never creates a session row: its two message rows keep a
null session id. -/
theorem chat_new_session_spec
    (db : DB) (uid rawMsg freshSid : String) (avail : Bool) (o : ModelOracle)
    (getText : String → String) (hmsg : pyStrip rawMsg ≠ "") :
    ∃ bot, bot ≠ "" ∧
      chat_step db uid rawMsg none freshSid avail o getText =
        ({ sessions := db.sessions ++ [⟨freshSid, uid, pyTake (pyStrip rawMsg) 60⟩],
           messages := db.messages ++
             [⟨uid, "user", pyStrip rawMsg, some freshSid⟩,
              ⟨uid, "assistant", bot, some freshSid⟩] }, ⟨some freshSid, bot⟩) ∧
      (stream_chat_step db uid rawMsg none avail o).1.sessions = db.sessions := by
  obtain ⟨bot, hbot, hbne⟩ := chat_responseE_ok avail o
    (injectFileContext [] (pyStrip rawMsg) getText) []
  refine ⟨bot, hbne, ?_, ?_⟩
  · unfold chat_step
    simp only [if_neg hmsg, hbot]
    unfold save_message
    simp only [injectFileContext, List.reverse_nil, List.find?_nil, Option.getD,
      pyStrip_idem, List.append_assoc, List.singleton_append]
  · obtain ⟨full, hfull, -⟩ := chat_responseE_ok avail o (pyStrip rawMsg) []
    unfold stream_chat_step
    simp only [if_neg hmsg, hfull]
    unfold save_message
    simp only

/-- Witness for the amended C5 at a concrete request. -/
theorem chat_new_session_spec_witness :
    ∃ bot, bot ≠ "" ∧
      chat_step ⟨[], []⟩ "alice" " Hello " none "S1" false
          (fun _ _ => .error "down") (fun _ => "") =
        ({ sessions := [⟨"S1", "alice", pyTake (pyStrip " Hello ") 60⟩],
           messages :=
             [⟨"alice", "user", pyStrip " Hello ", some "S1"⟩,
              ⟨"alice", "assistant", bot, some "S1"⟩] }, ⟨some "S1", bot⟩) ∧
      (stream_chat_step ⟨[], []⟩ "alice" " Hello " none false
        (fun _ _ => .error "down")).1.sessions = [] := by
  have h := chat_new_session_spec ⟨[], []⟩ "alice" " Hello " "S1" false
    (fun _ _ => .error "down") (fun _ => "") (by decide)
  simpa using h

/-! ## Claim C4 -/

/-- An `"(error) "`-prefixed string starts with `"(error)"`. -/
theorem startswith_error_append (e : String) :
    pyStartswith ("(error) " ++ e) "(error)" = true := by
  unfold pyStartswith
  rw [String.data_append]
  exact List.isPrefixOf_iff_prefix.mpr
    (List.IsPrefix.trans (by decide) ( List.prefix_append _ _))

/-- Claim C4: no public gateway operation raises to its caller — for every
input and every behaviour of the external calls, each operation returns
normally (`isOk`); the underlying model call is attempted at most 3 times
(`attemptsUsed`); and when all 3 attempts raise, `_generate` converts the
caught error into a string beginning with `"(error)"`.  (The exponential
back-off between attempts is wall-clock behaviour outside the embedding.) -/
theorem gateway_total_and_bounded_retry
    (o : ModelOracle) (jsonP : String → Except String (Option (List String)))
    (sdkImg : Option (Except String (Option String)))
    (sdkEmb : Option (Except String (List (Option (List Nat)))))
    (avail : Bool) (msg text imagePath : String) (hist : List Turn)
    (bullets topK : Nat) (texts : List String) :
    (chat_responseE avail o msg hist).isOk = true ∧
      (summarizeE avail o text bullets).isOk = true ∧
      (keywordsE avail o jsonP text topK).isOk = true ∧
      (explain_pdf_textE avail o text bullets).isOk = true ∧
      (describe_imageE avail sdkImg o imagePath).isOk = true ∧
      (generate_embeddingsE avail texts sdkEmb).isOk = true ∧
      attemptsUsed o msg ≤ 3 ∧
      (∀ e1 e2 e3, o msg 1 = .error e1 → o msg 2 = .error e2 → o msg 3 = .error e3 →
        generate true o msg = "(error) " ++ e3 ∧
          pyStartswith (generate true o msg) "(error)" = true) := by
  refine ⟨?_, ?_, ?_, ?_, ?_, ?_, ?_, ?_⟩
  · unfold chat_responseE
    split <;> rfl
  · unfold summarizeE
    split
    · rfl
    · split <;> rfl
  · unfold keywordsE
    split
    · rfl
    · dsimp only
      split <;> rfl
  · unfold explain_pdf_textE
    split
    · rfl
    · split <;> rfl
  · unfold describe_imageE
    split
    · rfl
    · split <;> rfl
  · unfold generate_embeddingsE
    split
    · rfl
    · split <;> rfl
  · unfold attemptsUsed
    split
    · omega
    · split <;> omega
  · intro e1 e2 e3 h1 h2 h3
    have hgen : generate true o msg = "(error) " ++ e3 := by
      unfold generate call_model
      rw [h1, h2, h3]
      rfl
    exact ⟨hgen, by rw [hgen]; exact startswith_error_append e3⟩

/-- Witness for C4 with every external call failing. -/
theorem gateway_total_witness :
    (chat_responseE true (fun _ n => .error (toString n)) "hi" []).isOk = true ∧
      (summarizeE true (fun _ n => .error (toString n)) "some text" 3).isOk = true ∧
      (keywordsE true (fun _ n => .error (toString n)) (fun _ => .error "bad json")
        "some text" 8).isOk = true ∧
      (explain_pdf_textE true (fun _ n => .error (toString n)) "some text" 4).isOk = true ∧
      (describe_imageE true (some (.error "sdk down")) (fun _ n => .error (toString n))
        "pic.png").isOk = true ∧
      (generate_embeddingsE true ["a"]
        (some (.error "sdk down") : Option (Except String (List (Option (List Nat)))))).isOk
        = true ∧
      attemptsUsed (fun _ n => .error (toString n)) "hi" ≤ 3 ∧
      generate true (fun _ n => .error (toString n)) "hi" = "(error) " ++ "3" ∧
      pyStartswith (generate true (fun _ n => .error (toString n)) "hi") "(error)" = true := by
  have h := gateway_total_and_bounded_retry (fun _ n => .error (toString n))
    (fun _ => .error "bad json") (some (.error "sdk down"))
    (some (.error "sdk down") : Option (Except String (List (Option (List Nat)))))
    true "hi" "some text" "pic.png" [] 4 8 ["a"]
  have hx := h.2.2.2.2.2.2.2 "1" "2" "3" rfl rfl rfl
  exact ⟨h.1, h.2.1, h.2.2.1, h.2.2.2.1, h.2.2.2.2.1, h.2.2.2.2.2.1, h.2.2.2.2.2.2.1,
    hx.1, hx.2⟩

/-! ## Claim C7 -/

/-- Dropping with `dropWhile` never lengthens a list. -/
theorem length_dropWhile_le' (p : α → Bool) (l : List α) :
    (l.dropWhile p).length ≤ l.length := by
  induction l with
  | nil => simp
  | cons a l ih =>
    by_cases h : p a
    · rw [List.dropWhile_cons_of_pos h]
      simp only [List.length_cons]
      omega
    · rw [List.dropWhile_cons_of_neg h]

/-- Stripping never lengthens a list. -/
theorem pyStripList_length_le (l : List Char) : (pyStripList l).length ≤ l.length := by
  unfold pyStripList
  simp only [List.length_reverse]
  exact le_trans (length_dropWhile_le' _ _)
    (by simp only [List.length_reverse]; exact length_dropWhile_le' _ _)

/-- Length of a Python slice. -/
theorem pySlice_length (t : List Char) (a b : Nat) :
    (pySlice t a b).length = min b t.length - a := by
  simp [pySlice]

/-- A slice glued back onto the matching drop. -/
theorem pySlice_append_drop (t : List Char) (a b : Nat) (hab : a ≤ b) (hb : b ≤ t.length) :
    pySlice t a b ++ t.drop b = t.drop a := by
  unfold pySlice
  conv_rhs => rw [← List.take_append_drop b t]
  rw [List.drop_append_eq_append_drop]
  have hlen : (t.take b).length = b := by
    rw [List.length_take]
    omega
  rw [hlen]
  have : a - b = 0 := by omega
  rw [this, List.drop_zero]

/-- The search `lastIdxOf` returns the index of an occurrence. -/
theorem lastIdxOf_spec (ch : Char) :
    ∀ (l : List Char) (i : Nat), lastIdxOf ch l = some i → i < l.length ∧ l[i]? = some ch := by
  intro l
  induction l with
  | nil => intro i h; simp [lastIdxOf] at h
  | cons c rest ih =>
    intro i h
    cases hr : lastIdxOf ch rest with
    | some j =>
      simp only [lastIdxOf, hr] at h
      injection h with h'
      subst h'
      obtain ⟨h1, h2⟩ := ih j hr
      refine ⟨by simp only [List.length_cons]; omega, ?_⟩
      simpa using h2
    | none =>
      simp only [lastIdxOf, hr] at h
      by_cases hc : c = ch
      · rw [if_pos hc] at h
        injection h with h'
        subst h'
        subst hc
        exact ⟨by simp, by simp⟩
      · rw [if_neg hc] at h
        cases h

/-- The search `lastIdxOfDotSpace` returns the start index of a `". "` occurrence. -/
theorem lastIdxOfDotSpace_spec :
    ∀ (l : List Char) (i : Nat), lastIdxOfDotSpace l = some i →
      i + 1 < l.length ∧ l[i]? = some '.' ∧ l[i + 1]? = some ' ' := by
  intro l
  induction l with
  | nil => intro i h; simp [lastIdxOfDotSpace] at h
  | cons c rest ih =>
    cases hrest : rest with
    | nil => intro i h; simp [lastIdxOfDotSpace] at h
    | cons c2 rest2 =>
      intro i h
      subst hrest
      cases hr : lastIdxOfDotSpace (c2 :: rest2) with
      | some j =>
        simp only [lastIdxOfDotSpace, hr] at h
        injection h with h'
        subst h'
        obtain ⟨h1, h2, h3⟩ := ih j hr
        refine ⟨by simp only [List.length_cons] at h1 ⊢; omega, ?_, ?_⟩
        · simpa using h2
        · simpa using h3
      | none =>
        simp only [lastIdxOfDotSpace, hr] at h
        by_cases hc : (c = '.' && c2 = ' ') = true
        · rw [if_pos hc] at h
          injection h with h'
          subst h'
          rw [Bool.and_eq_true, decide_eq_true_eq, decide_eq_true_eq] at hc
          obtain ⟨hc1, hc2⟩ := hc
          subst hc1
          subst hc2
          exact ⟨by simp only [List.length_cons]; omega, by simp, by simp⟩
        · rw [if_neg hc] at h
          cases h

/-- Taking `getLast?` of a one-longer take reads the indexed element. -/
theorem getLast?_take_succ (l : List α) (k : Nat) (h : k < l.length) :
    (l.take (k + 1)).getLast? = l[k]? := by
  rw [List.getLast?_take, if_neg (Nat.succ_ne_zero k)]
  simp only [Nat.add_sub_cancel]
  cases hk : l[k]? with
  | none =>
    rw [List.getElem?_eq_none_iff] at hk
    omega
  | some a => rfl

/-- A non-negative `cut` points at a `'\n'` or at the `'.'` of a `". "`. -/
theorem chunkCut_spec (sl : List Char) (j : Nat) (h : chunkCut sl = (j : Int)) :
    j < sl.length ∧ (sl[j]? = some '\n' ∨ sl[j]? = some '.') := by
  unfold chunkCut at h
  rcases max_choice (optIdxToInt (lastIdxOf '\n' sl)) (optIdxToInt (lastIdxOfDotSpace sl)) with
    hmx | hmx <;> rw [hmx] at h
  · cases hn : lastIdxOf '\n' sl with
    | none => rw [hn] at h; simp [optIdxToInt] at h
    | some i =>
      rw [hn] at h
      simp only [optIdxToInt] at h
      have h' : i = j := by exact_mod_cast h
      subst h'
      obtain ⟨h1, h2⟩ := lastIdxOf_spec '\n' sl i hn
      exact ⟨h1, Or.inl h2⟩
  · cases hn : lastIdxOfDotSpace sl with
    | none => rw [hn] at h; simp [optIdxToInt] at h
    | some i =>
      rw [hn] at h
      simp only [optIdxToInt] at h
      have h' : i = j := by exact_mod_cast h
      subst h'
      obtain ⟨h1, h2, h3⟩ := lastIdxOfDotSpace_spec sl i hn
      exact ⟨by omega, Or.inr h2⟩

/-- Bounds on the chosen chunk end: it advances, stays inside the text,
and moves by at most `max_chars`. -/
theorem chunkEnd_spec (maxc : Nat) (t : List Char) (start : Nat) (hm : 0 < maxc)
    (hs : start < t.length) :
    start < chunkEnd maxc t start ∧ chunkEnd maxc t start ≤ t.length ∧
      chunkEnd maxc t start - start ≤ maxc := by
  simp only [chunkEnd]
  by_cases he : min (start + maxc) t.length < t.length
  · rw [if_pos he]
    by_cases hc : ((maxc / 2 : Nat) : Int) < chunkCut (pySlice t start (min (start + maxc) t.length))
    · rw [if_pos hc]
      have h0 : 0 ≤ chunkCut (pySlice t start (min (start + maxc) t.length)) :=
        le_trans (Int.natCast_nonneg _) (le_of_lt hc)
      obtain ⟨j, hj⟩ := Int.eq_ofNat_of_zero_le h0
      have hspec := chunkCut_spec _ j hj
      have hjlen := hspec.1
      rw [pySlice_length] at hjlen
      rw [hj]
      simp only [Int.toNat_natCast]
      omega
    · rw [if_neg hc]
      omega
  · rw [if_neg he]
    omega

/-- Dichotomy for a non-final chunk slice: either the full `max_chars`
budget, or a shortened slice that is longer than half the budget and ends
at a newline or at the dot of a `". "` sentence boundary. -/
theorem chunkSeg_dichot (maxc : Nat) (t : List Char) (start : Nat) (hm : 0 < maxc)
    (_hs : start < t.length) (hlt : chunkEnd maxc t start < t.length) :
    (pySlice t start (chunkEnd maxc t start)).length = maxc ∨
      (maxc < 2 * (pySlice t start (chunkEnd maxc t start)).length ∧
        ((pySlice t start (chunkEnd maxc t start)).getLast? = some '\n' ∨
         (pySlice t start (chunkEnd maxc t start)).getLast? = some '.')) := by
  simp only [chunkEnd] at hlt ⊢
  by_cases he : min (start + maxc) t.length < t.length
  · rw [if_pos he] at hlt ⊢
    have hlen' : start + maxc < t.length := by omega
    by_cases hc : ((maxc / 2 : Nat) : Int) < chunkCut (pySlice t start (min (start + maxc) t.length))
    · rw [if_pos hc] at hlt ⊢
      right
      have h0 : 0 ≤ chunkCut (pySlice t start (min (start + maxc) t.length)) :=
        le_trans (Int.natCast_nonneg _) (le_of_lt hc)
      obtain ⟨j, hj⟩ := Int.eq_ofNat_of_zero_le h0
      obtain ⟨hjlen, hjchar⟩ := chunkCut_spec _ j hj
      have hjlen' : j < maxc := by
        rw [pySlice_length] at hjlen
        omega
      have hcj : maxc / 2 < j := by
        rw [hj] at hc
        omega
      have hseg : pySlice t start
          (start + (chunkCut (pySlice t start (min (start + maxc) t.length))).toNat + 1)
          = (pySlice t start (min (start + maxc) t.length)).take (j + 1) := by
        rw [hj]
        simp only [Int.toNat_natCast]
        unfold pySlice
        rw [List.take_drop, List.take_take]
        have hmin2 : min (start + (j + 1)) (min (start + maxc) t.length) = start + (j + 1) := by
          omega
        rw [hmin2]
        have : start + j + 1 = start + (j + 1) := by omega
        rw [this]
      rw [hseg]
      constructor
      · rw [List.length_take, pySlice_length]
        omega
      · rw [getLast?_take_succ _ j hjlen]
        exact hjchar
    · rw [if_neg hc] at hlt ⊢
      left
      rw [pySlice_length]
      omega
  · rw [if_neg he] at hlt
    omega

/-- A non-empty chunk list means the loop was entered. -/
theorem chunkSegsGo_cons_inv (maxc : Nat) (t : List Char) (fuel start : Nat)
    (h : chunkSegsGo maxc t fuel start ≠ []) : start < t.length := by
  cases fuel with
  | zero => simp [chunkSegsGo] at h
  | succ f =>
    by_cases hs : start < t.length
    · exact hs
    · simp [chunkSegsGo, hs] at h

/-- Invariant of the chunking loop: the raw slices concatenate back to the
remaining text, each is at most `max_chars` long, and every non-final
slice is either full-size or a longer-than-half-budget cut ending at a
sentence boundary. -/
theorem chunkSegsGo_spec (maxc : Nat) (t : List Char) (hm : 0 < maxc) :
    ∀ (fuel start : Nat), t.length ≤ start + fuel →
      (chunkSegsGo maxc t fuel start).foldr (· ++ ·) [] = t.drop start ∧
        (∀ seg ∈ chunkSegsGo maxc t fuel start, seg.length ≤ maxc) ∧
        (∀ seg ∈ (chunkSegsGo maxc t fuel start).dropLast,
          seg.length = maxc ∨ (maxc < 2 * seg.length ∧
            (seg.getLast? = some '\n' ∨ seg.getLast? = some '.'))) := by
  intro fuel
  induction fuel with
  | zero =>
    intro start h
    have hd : t.drop start = [] := List.drop_eq_nil_of_le (by omega)
    simp [chunkSegsGo, hd]
  | succ f ih =>
    intro start h
    by_cases hs : start < t.length
    · have hb := chunkEnd_spec maxc t start hm hs
      have ihe := ih (chunkEnd maxc t start) (by omega)
      simp only [chunkSegsGo, if_pos hs]
      refine ⟨?_, ?_, ?_⟩
      · simp only [List.foldr_cons]
        rw [ihe.1]
        exact pySlice_append_drop t start _ (by omega) hb.2.1
      · intro seg hseg
        rcases List.mem_cons.mp hseg with hfirst | hrest
        · subst hfirst
          rw [pySlice_length]
          omega
        · exact ihe.2.1 seg hrest
      · cases hrest : chunkSegsGo maxc t f (chunkEnd maxc t start) with
        | nil => simp [hrest]
        | cons r rs =>
          rw [List.dropLast_cons₂]
          intro seg hseg
          rcases List.mem_cons.mp hseg with hfirst | hrest2
          · subst hfirst
            have hend : chunkEnd maxc t start < t.length :=
              chunkSegsGo_cons_inv maxc t f _ (by rw [hrest]; simp)
            exact chunkSeg_dichot maxc t start hm hs hend
          · exact ihe.2.2 seg (by rw [hrest]; exact hrest2)
    · simp only [chunkSegsGo, if_neg hs]
      have hd : t.drop start = [] := List.drop_eq_nil_of_le (by omega)
      simp [hd]

/-- The real loop appends each slice stripped. -/
theorem chunkGo_eq_map (maxc : Nat) (t : List Char) :
    ∀ fuel start, chunkGo maxc t fuel start = (chunkSegsGo maxc t fuel start).map pyStripList := by
  intro fuel
  induction fuel with
  | zero => intro start; rfl
  | succ f ih =>
    intro start
    by_cases hs : start < t.length
    · simp only [chunkGo, chunkSegsGo, if_pos hs, List.map_cons]
      rw [ih]
    · simp only [chunkGo, chunkSegsGo, if_neg hs, List.map_nil]

/-- Claim C7: for every input and positive chunk limit, `_chunk_text`
(1) returns only chunks of length at most the limit; (2) the chunks are
the stripped pieces of a partition of the stripped input — concatenating
the pieces with their original whitespace reconstructs the input's
content; and (3) every non-final piece is either the full-size chunk or a
piece shortened at a `'\n'` / `". "` boundary whose cut point falls after
half the chunk budget (so twice its length exceeds the budget).  The
condition `cut > int(max_chars * 0.5)` of `utils._chunk_text` and the
float comparison `cut > max_chars * 0.5` of `model_wrapper._chunk_text`
agree for integer `cut`, so this covers both sources. -/
theorem chunk_text_spec (t : List Char) (maxc : Nat) (hm : 0 < maxc) :
    (∀ c ∈ chunk_textList t maxc, c.length ≤ maxc) ∧
      ∃ segs : List (List Char),
        segs.foldr (· ++ ·) [] = pyStripList t ∧
        chunk_textList t maxc = segs.map pyStripList ∧
        ∀ seg ∈ segs.dropLast,
          seg.length = maxc ∨ (maxc < 2 * seg.length ∧
            (seg.getLast? = some '\n' ∨ seg.getLast? = some '.')) := by
  unfold chunk_textList
  by_cases ht : t = []
  · rw [if_pos ht]
    subst ht
    exact ⟨by simp, [], rfl, by simp, by simp⟩
  · rw [if_neg ht]
    by_cases hlen : (pyStripList t).length ≤ maxc
    · rw [if_pos hlen]
      refine ⟨?_, [pyStripList t], by simp, ?_, by simp⟩
      · intro c hc
        rw [List.mem_singleton] at hc
        subst hc
        exact hlen
      · simp [pyStripList_idem]
    · rw [if_neg hlen]
      have hspec := chunkSegsGo_spec maxc (pyStripList t) hm (pyStripList t).length 0 (by omega)
      refine ⟨?_, chunkSegsGo maxc (pyStripList t) (pyStripList t).length 0, ?_, ?_, hspec.2.2⟩
      · intro c hc
        rw [chunkGo_eq_map] at hc
        obtain ⟨seg, hsg, rfl⟩ := List.mem_map.mp hc
        exact le_trans (pyStripList_length_le seg) (hspec.2.1 seg hsg)
      · simpa using hspec.1
      · exact chunkGo_eq_map maxc (pyStripList t) (pyStripList t).length 0

/-- Witness for C7 at a concrete over-limit input. -/
theorem chunk_text_spec_witness :
    (∀ c ∈ chunk_textList ("aaaaaa. bbbbb. ccc".data) 10, c.length ≤ 10) ∧
      ∃ segs : List (List Char),
        segs.foldr (· ++ ·) [] = pyStripList ("aaaaaa. bbbbb. ccc".data) ∧
        chunk_textList ("aaaaaa. bbbbb. ccc".data) 10 = segs.map pyStripList ∧
        ∀ seg ∈ segs.dropLast,
          seg.length = 10 ∨ (10 < 2 * seg.length ∧
            (seg.getLast? = some '\n' ∨ seg.getLast? = some '.')) :=
  chunk_text_spec ("aaaaaa. bbbbb. ccc".data) 10 (by decide)
